import Mathlib

/-!
# A formal model of `studybot.py`

A shallow embedding of the study-session Telegram bot: the leaderboard
store (`add_study_minutes`, the leaderboard query), the in-memory session
registry (`active_sessions`, `session_tasks`), and the command handlers
(`study_command`, `join_command`, `status_command`, `end_command`,
`leaderboard_command`) together with one iteration of the `run_session`
polling loop (`runSessionTick`).

Timestamps are modelled as integer seconds (`Int`); `datetime` arithmetic
in the source is exact second arithmetic here.  Outgoing Telegram messages
are modelled as structured `Msg` values carrying the data the source
formats into text (message formatting itself is out of scope).  A Python
`int(...)` call that may raise `ValueError` is modelled by an
`Option Int` argument, `none` standing for a malformed numeric string.
-/

namespace StudyBot

/-- A session member, `{"id": user.id, "name": ...}` in the source. -/
structure Member where
  id : Int
  name : String
deriving DecidableEq, Repr

/-- The session dict built in `study_command`. -/
structure Session where
  minutes : Int
  start_time : Int
  members : List Member
  mode : String
  cycles : Int
  warned_5m : Bool
  warned_1m : Bool
deriving DecidableEq, Repr

/-- One row of the `leaderboard` SQLite table (primary key `(chat_id, user_id)`). -/
structure LBRow where
  chat_id : Int
  user_id : Int
  username : String
  total_minutes : Int
deriving DecidableEq, Repr

/-- The mutable program state: the `active_sessions` dict (as an
association list in insertion order), the key set of `session_tasks`,
and the `leaderboard` table rows in insertion order. -/
structure State where
  active_sessions : List (Int × Session)
  session_tasks : List Int
  leaderboard : List LBRow
deriving DecidableEq, Repr

/-- The empty initial state: no sessions, no tasks, empty table. -/
def initState : State := ⟨[], [], []⟩

/-- Dict lookup `active_sessions.get(chat_id)`. -/
def getSession (chat : Int) : List (Int × Session) → Option Session
  | [] => none
  | (c, s) :: rest => if c = chat then some s else getSession chat rest

/-- Dict assignment `active_sessions[chat_id] = session`: replace the
entry in place if the key is present, else append. -/
def setSession (chat : Int) (s : Session) : List (Int × Session) → List (Int × Session)
  | [] => [(chat, s)]
  | (c, t) :: rest => if c = chat then (chat, s) :: rest else (c, t) :: setSession chat s rest

/-- Dict removal `active_sessions.pop(chat_id, None)`. -/
def removeSession (chat : Int) : List (Int × Session) → List (Int × Session)
  | [] => []
  | (c, s) :: rest =>
    if c = chat then removeSession chat rest else (c, s) :: removeSession chat rest

/-- Key insertion `session_tasks[chat_id] = task`. -/
def addTask (chat : Int) (l : List Int) : List Int :=
  if chat ∈ l then l else l ++ [chat]

/-- Key removal `session_tasks.pop(chat_id, None)`. -/
def removeTask (chat : Int) : List Int → List Int
  | [] => []
  | c :: rest => if c = chat then removeTask chat rest else c :: removeTask chat rest

/-- `SELECT total_minutes FROM leaderboard WHERE chat_id = ? AND user_id = ?`
(first matching row; the primary key keeps rows unique). -/
def findEntry : List LBRow → Int → Int → Option LBRow
  | [], _, _ => none
  | r :: rest, c, u => if r.chat_id = c ∧ r.user_id = u then some r else findEntry rest c u

/-- Cumulative minutes stored for a key, `0` when no row exists. -/
def getTotal (lb : List LBRow) (c u : Int) : Int :=
  match findEntry lb c u with
  | some r => r.total_minutes
  | none => 0

/-- The effect of the SQL `UPDATE` on one row: rows matching the key get
the new total and username, other rows are untouched. -/
def updateRow (c u : Int) (name : String) (total : Int) (r : LBRow) : LBRow :=
  if r.chat_id = c ∧ r.user_id = u then { r with username := name, total_minutes := total } else r

/-- `add_study_minutes(chat_id, user_id, username, minutes)`: read the
existing total; if a row exists, `UPDATE` it to `old + minutes` with the
latest username, else `INSERT` a fresh row with `total_minutes = minutes`. -/
def add_study_minutes (lb : List LBRow) (c u : Int) (name : String) (m : Int) : List LBRow :=
  match findEntry lb c u with
  | some r => lb.map (updateRow c u name (r.total_minutes + m))
  | none => lb ++ [⟨c, u, name, m⟩]

/-- The completion credit pass in `run_session`: one
`add_study_minutes` call per member, in membership order. -/
def creditMembers (chat : Int) (ms : List Member) (m : Int) (lb : List LBRow) : List LBRow :=
  ms.foldl (fun acc u => add_study_minutes acc chat u.id u.name m) lb

/-- `', '.join(names) or 'No one'` in the completion message. -/
def participantsText (ms : List Member) : String :=
  let j := String.intercalate ", " (ms.map Member.name)
  if j = "" then "No one" else j

/-- `", ".join(names) or "No participants yet"` in the status message. -/
def statusMembersText (ms : List Member) : String :=
  let j := String.intercalate ", " (ms.map Member.name)
  if j = "" then "No participants yet" else j

/-- An outgoing `send_message` call, by kind with its payload data. -/
inductive Msg where
  | finished (chat : Int) (minutes : Int) (participants : String)
  | warn1 (chat : Int)
  | warn5 (chat : Int)
deriving DecidableEq, Repr

/-- `remaining = (end_time - now).total_seconds()` where
`end_time = start_time + timedelta(minutes=minutes)`. -/
def remainingAt (s : Session) (now : Int) : Int :=
  s.start_time + s.minutes * 60 - now

/-- Result of one iteration of the `run_session` loop. -/
structure TickOut where
  state : State
  events : List Msg
  finished : Bool
deriving DecidableEq, Repr

/-- One iteration of the `while True` loop in `run_session`, evaluated at
wall-clock time `now`: if the session is gone the task returns; if
`remaining <= 0` it credits every member, sends the completion message and
pops the session; otherwise it fires whichever warning windows are hit and
whose flags are unset, setting the flags. -/
def runSessionTick (chat now : Int) (st : State) : TickOut :=
  match getSession chat st.active_sessions with
  | none => ⟨st, [], true⟩
  | some s =>
    let remaining := remainingAt s now
    if remaining ≤ 0 then
      { state := { st with
          active_sessions := removeSession chat st.active_sessions,
          session_tasks := removeTask chat st.session_tasks,
          leaderboard := creditMembers chat s.members s.minutes st.leaderboard },
        events := [Msg.finished chat s.minutes (participantsText s.members)],
        finished := true }
    else
      let p1 : Bool := decide (60 ≤ remaining ∧ remaining < 75) && !s.warned_1m
      let p5 : Bool := decide (300 ≤ remaining ∧ remaining < 330) && !s.warned_5m
      let s' := { s with warned_1m := s.warned_1m || p1, warned_5m := s.warned_5m || p5 }
      { state := { st with active_sessions := setSession chat s' st.active_sessions },
        events := (if p1 then [Msg.warn1 chat] else []) ++ (if p5 then [Msg.warn5 chat] else []),
        finished := false }

/-- Run the loop body at each time in `nows` in order, collecting events. -/
def runTicks (chat : Int) (nows : List Int) (st : State) : State × List Msg :=
  match nows with
  | [] => (st, [])
  | now :: rest =>
    let out := runSessionTick chat now st
    let next := runTicks chat rest out.state
    (next.1, out.events ++ next.2)

/-- The reply of `study_command`. -/
inductive StudyReply where
  | usage
  | invalidInput
  | conflict
  | started (minutes cycles : Int)
deriving DecidableEq, Repr

/-- The numeric-argument parse in `study_command`:
`minutes = int(args[0])`, `cycles = int(args[1]) if len(args) > 1 else 1`,
where a `none` argument stands for a string on which `int` raises. -/
def parseStudy : List (Option Int) → Option (Int × Int)
  | [] => none
  | none :: _ => none
  | some m :: [] => some (m, 1)
  | some _ :: none :: _ => none
  | some m :: some c :: _ => some (m, c)

/-- `study_command`: usage message on no arguments; `invalidInput` on a
malformed number or `minutes <= 0`; `conflict` when a session is already
active for the chat; otherwise installs a fresh session and its task. -/
def study_command (chat now : Int) (args : List (Option Int)) (st : State) :
    State × StudyReply :=
  match args with
  | [] => (st, .usage)
  | a :: rest =>
    match parseStudy (a :: rest) with
    | none => (st, .invalidInput)
    | some (m, c) =>
      if m ≤ 0 then (st, .invalidInput)
      else if (getSession chat st.active_sessions).isSome then (st, .conflict)
      else
        let s : Session :=
          { minutes := m, start_time := now, members := [],
            mode := if 1 < c then "Pomodoro" else "Single",
            cycles := c, warned_5m := false, warned_1m := false }
        ({ st with active_sessions := setSession chat s st.active_sessions,
                   session_tasks := addTask chat st.session_tasks },
         .started m c)

/-- The reply of `join_command`. -/
inductive JoinReply where
  | noSession
  | alreadyJoined
  | joined (name : String) (count : Nat)
deriving DecidableEq, Repr

/-- `join_command`: no active session, already a member, or append the
member and report the new member count. -/
def join_command (chat uid : Int) (name : String) (st : State) : State × JoinReply :=
  match getSession chat st.active_sessions with
  | none => (st, .noSession)
  | some s =>
    if s.members.any (fun u => u.id == uid) then (st, .alreadyJoined)
    else
      let s' := { s with members := s.members ++ [⟨uid, name⟩] }
      ({ st with active_sessions := setSession chat s' st.active_sessions },
       .joined name s'.members.length)

/-- The reply of `status_command`. -/
inductive StatusReply where
  | noSession
  | status (duration mins secs : Int) (participants : String)
deriving DecidableEq, Repr

/-- `status_command`: `remaining = max(0, int((end_time - now).total_seconds()))`,
reported as `remaining // 60` minutes and `remaining % 60` seconds. -/
def status_command (chat now : Int) (st : State) : StatusReply :=
  match getSession chat st.active_sessions with
  | none => .noSession
  | some s =>
    let remaining : Int := max 0 (remainingAt s now)
    .status s.minutes (remaining / 60) (remaining % 60) (statusMembersText s.members)

/-- Outcome of `context.bot.get_chat_member`: the member's status string,
or an exception. -/
inductive PermCheck where
  | ok (status : String)
  | err
deriving DecidableEq, Repr

/-- The reply of `end_command`. -/
inductive EndReply where
  | forbidden
  | permFailed
  | noSession
  | ended
deriving DecidableEq, Repr

/-- `end_command`: the permission check runs first (an exception or a
status outside `("administrator", "creator")` rejects the request); only
then is the registry consulted; an active session is cancelled and popped. -/
def end_command (chat : Int) (perm : PermCheck) (st : State) : State × EndReply :=
  match perm with
  | .err => (st, .permFailed)
  | .ok status =>
    if status ≠ "administrator" ∧ status ≠ "creator" then (st, .forbidden)
    else if (getSession chat st.active_sessions).isNone then (st, .noSession)
    else
      ({ st with active_sessions := removeSession chat st.active_sessions,
                 session_tasks := removeTask chat st.session_tasks },
       .ended)

/-- Rows of the `leaderboard` table for one chat, as `(username, total_minutes)`
pairs in table order (the `WHERE chat_id = ?` filter and projection). -/
def lbRows (lb : List LBRow) (chat : Int) : List (String × Int) :=
  (lb.filter fun r => decide (r.chat_id = chat)).map fun r => (r.username, r.total_minutes)

/-- The `ORDER BY total_minutes DESC` comparison. -/
def byMinutesDesc (a b : String × Int) : Prop := b.2 ≤ a.2

instance : DecidableRel byMinutesDesc := fun a b => inferInstanceAs (Decidable (b.2 ≤ a.2))

instance : IsTotal (String × Int) byMinutesDesc := ⟨fun a b => le_total b.2 a.2⟩

instance : IsTrans (String × Int) byMinutesDesc := ⟨fun _ _ _ h1 h2 => le_trans h2 h1⟩

/-- The query in `leaderboard_command`:
`SELECT username, total_minutes FROM leaderboard WHERE chat_id = ?
 ORDER BY total_minutes DESC LIMIT 10` — the limit is the literal `10`,
the command takes no limit argument. -/
def leaderboardQuery (lb : List LBRow) (chat : Int) : List (String × Int) :=
  (List.insertionSort byMinutesDesc (lbRows lb chat)).take 10

/-- The reply of `leaderboard_command`. -/
inductive LBReply where
  | noRecords
  | board (rows : List (String × Int))
deriving DecidableEq, Repr

/-- `leaderboard_command`: "No records yet." on an empty result set
(an informational reply, not an error), else the rows in query order. -/
def leaderboard_command (chat : Int) (st : State) : LBReply :=
  let rows := leaderboardQuery st.leaderboard chat
  if rows = [] then .noRecords else .board rows

/-- Modelled from the spec: `topN(groupId, n)` — the spec's leaderboard
operation takes a requested limit `n` and returns at most `n` entries
sorted by `totalMinutes` descending.  The source exposes no such
parameter (its limit is the literal 10); this definition exists only to
compare the spec's interface against `leaderboardQuery`. -/
def topN_spec (lb : List LBRow) (chat : Int) (n : Nat) : List (String × Int) :=
  (List.insertionSort byMinutesDesc (lbRows lb chat)).take n

/-- A state-mutating or state-reading request, for the reachable-state
invariant: every handler of the bot plus one poll-loop iteration. -/
inductive Op where
  | study (chat now : Int) (args : List (Option Int))
  | join (chat uid : Int) (name : String)
  | statusQ (chat now : Int)
  | cancel (chat : Int) (perm : PermCheck)
  | leaderboardQ (chat : Int)
  | tick (chat now : Int)
deriving Repr

/-- The state transition of one request (replies discarded; `status` and
`leaderboard` only read). -/
def applyOp (st : State) : Op → State
  | .study chat now args => (study_command chat now args st).1
  | .join chat uid name => (join_command chat uid name st).1
  | .statusQ _ _ => st
  | .cancel chat perm => (end_command chat perm st).1
  | .leaderboardQ _ => st
  | .tick chat now => (runSessionTick chat now st).state

/-- Run a sequence of requests from a state. -/
def runOps (ops : List Op) (st : State) : State :=
  ops.foldl applyOp st

/-- The session after the warning checks of one non-final loop iteration:
each flag is set when its window is hit and it was unset. -/
def warnStep (s : Session) (now : Int) : Session :=
  { s with
    warned_1m := s.warned_1m ||
      (decide (60 ≤ remainingAt s now ∧ remainingAt s now < 75) && !s.warned_1m),
    warned_5m := s.warned_5m ||
      (decide (300 ≤ remainingAt s now ∧ remainingAt s now < 330) && !s.warned_5m) }

/-- The warnings sent by one non-final loop iteration. -/
def warnEvents (chat : Int) (s : Session) (now : Int) : List Msg :=
  (if (decide (60 ≤ remainingAt s now ∧ remainingAt s now < 75) && !s.warned_1m)
    then [Msg.warn1 chat] else []) ++
  (if (decide (300 ≤ remainingAt s now ∧ remainingAt s now < 330) && !s.warned_5m)
    then [Msg.warn5 chat] else [])

/-- Recognizes the "1 minute left" warning message. -/
def isWarn1 : Msg → Bool
  | .warn1 _ => true
  | _ => false

/-- Recognizes the "5 minutes left" warning message. -/
def isWarn5 : Msg → Bool
  | .warn5 _ => true
  | _ => false

/-- True when the chat has a live session whose 1-minute flag is unset —
the only situation in which a future tick could still fire that warning. -/
def canEmit1 (chat : Int) (st : State) : Bool :=
  match getSession chat st.active_sessions with
  | some s => !s.warned_1m
  | none => false

/-- True when the chat has a live session whose 5-minute flag is unset. -/
def canEmit5 (chat : Int) (st : State) : Bool :=
  match getSession chat st.active_sessions with
  | some s => !s.warned_5m
  | none => false

/-- The membership invariant: no session in the registry holds two
members with the same participant id. -/
def MembersNodup (st : State) : Prop :=
  ∀ chat s, getSession chat st.active_sessions = some s → (s.members.map Member.id).Nodup

/-- The session dict literal built by `study_command` on success. -/
def freshSession (m now c : Int) : Session :=
  { minutes := m, start_time := now, members := [],
    mode := if 1 < c then "Pomodoro" else "Single",
    cycles := c, warned_5m := false, warned_1m := false }

/-- Example data for the closed witness instances below. -/
def sampleSession : Session :=
  { minutes := 25, start_time := 0, members := [], mode := "Single", cycles := 1,
    warned_5m := false, warned_1m := false }

/-- A state with one fresh live session in chat 1. -/
def sampleState : State := ⟨[(1, sampleSession)], [1], []⟩

/-- A concrete member for witness instances. -/
def sampleMember : Member := ⟨42, "Ann"⟩

/-- The sample session with one member joined. -/
def sessionWithAnn : Session :=
  { minutes := 25, start_time := 0, members := [sampleMember], mode := "Single", cycles := 1,
    warned_5m := false, warned_1m := false }

/-- A state whose only session has one member. -/
def stateWithAnn : State := ⟨[(1, sessionWithAnn)], [1], []⟩

/-- Example leaderboard table: two rows in chat 1. -/
def lbExample : List LBRow := [⟨1, 10, "A", 10⟩, ⟨1, 11, "B", 5⟩]


end StudyBot

namespace StudyBot

/-! ## Registry lemmas -/

theorem getSession_removeSession_self (chat : Int) (l : List (Int × Session)) :
    getSession chat (removeSession chat l) = none := by
  induction l with
  | nil => rfl
  | cons p rest ih =>
    obtain ⟨c, s⟩ := p
    by_cases h : c = chat
    · simpa [removeSession, h] using ih
    · simpa [removeSession, getSession, h] using ih

theorem getSession_removeSession_ne (chat c : Int) (l : List (Int × Session))
    (h : c ≠ chat) :
    getSession c (removeSession chat l) = getSession c l := by
  induction l with
  | nil => rfl
  | cons p rest ih =>
    obtain ⟨c', s⟩ := p
    by_cases h' : c' = chat
    · have hnc : ¬ c' = c := by omega
      have h2 : ¬ chat = c := by omega
      simp [removeSession, getSession, h', hnc, h2, ih]
    · by_cases hc : c' = c
      · have h2 : ¬ c = chat := by omega
        simp [removeSession, getSession, h', hc, h2, ih]
      · simp [removeSession, getSession, h', hc, ih]

theorem getSession_setSession (chat c : Int) (s : Session) (l : List (Int × Session)) :
    getSession c (setSession chat s l) =
      if c = chat then some s else getSession c l := by
  induction l with
  | nil =>
    by_cases h : c = chat
    · simp [setSession, getSession, h]
    · have h2 : ¬ chat = c := by omega
      simp [setSession, getSession, h, h2]
  | cons p rest ih =>
    obtain ⟨c', t⟩ := p
    by_cases h' : c' = chat
    · by_cases h : c = chat
      · simp [setSession, getSession, h', h]
      · have h2 : ¬ chat = c := by omega
        have h3 : ¬ c' = c := by omega
        simp [setSession, getSession, h', h, h2, h3]
    · by_cases hc : c' = c
      · have h2 : ¬ c = chat := by omega
        simp [setSession, getSession, h', hc, h2]
      · simp [setSession, getSession, h', hc, ih]

/-! ## Leaderboard store lemmas -/

theorem findEntry_matches (lb : List LBRow) (c u : Int) (r : LBRow)
    (h : findEntry lb c u = some r) : r.chat_id = c ∧ r.user_id = u := by
  induction lb with
  | nil => cases h
  | cons a rest ih =>
    simp only [findEntry] at h
    by_cases ha : a.chat_id = c ∧ a.user_id = u
    · rw [if_pos ha] at h
      cases h
      exact ha
    · rw [if_neg ha] at h
      exact ih h

theorem updateRow_key (c u : Int) (name : String) (t : Int) (r : LBRow) :
    (updateRow c u name t r).chat_id = r.chat_id ∧
    (updateRow c u name t r).user_id = r.user_id := by
  unfold updateRow
  split <;> simp

theorem updateRow_of_ne (c u : Int) (name : String) (t : Int) (r : LBRow)
    (h : ¬ (r.chat_id = c ∧ r.user_id = u)) : updateRow c u name t r = r := by
  unfold updateRow
  rw [if_neg h]

theorem findEntry_map_updateRow (lb : List LBRow) (c u c' u' : Int) (name : String) (t : Int) :
    findEntry (lb.map (updateRow c u name t)) c' u' =
      (findEntry lb c' u').map (updateRow c u name t) := by
  induction lb with
  | nil => rfl
  | cons r rest ih =>
    obtain ⟨h1, h2⟩ := updateRow_key c u name t r
    simp only [List.map_cons, findEntry, h1, h2]
    by_cases h : r.chat_id = c' ∧ r.user_id = u'
    · simp [h]
    · simp [h, ih]

theorem findEntry_append_of_none (l1 l2 : List LBRow) (c u : Int)
    (h : findEntry l1 c u = none) :
    findEntry (l1 ++ l2) c u = findEntry l2 c u := by
  induction l1 with
  | nil => rfl
  | cons r rest ih =>
    rw [List.cons_append]
    simp only [findEntry] at h ⊢
    by_cases hr : r.chat_id = c ∧ r.user_id = u
    · rw [if_pos hr] at h
      cases h
    · rw [if_neg hr] at h ⊢
      exact ih h

theorem findEntry_append_of_some (l1 l2 : List LBRow) (c u : Int) (r : LBRow)
    (h : findEntry l1 c u = some r) :
    findEntry (l1 ++ l2) c u = some r := by
  induction l1 with
  | nil => cases h
  | cons a rest ih =>
    rw [List.cons_append]
    simp only [findEntry] at h ⊢
    by_cases ha : a.chat_id = c ∧ a.user_id = u
    · rw [if_pos ha] at h ⊢
      exact h
    · rw [if_neg ha] at h ⊢
      exact ih h

theorem getTotal_add_self (lb : List LBRow) (c u : Int) (name : String) (m : Int) :
    getTotal (add_study_minutes lb c u name m) c u = getTotal lb c u + m := by
  cases hfe : findEntry lb c u with
  | none =>
    have h1 : findEntry (lb ++ [⟨c, u, name, m⟩]) c u = some ⟨c, u, name, m⟩ := by
      rw [findEntry_append_of_none _ _ _ _ hfe]
      simp [findEntry]
    simp [add_study_minutes, getTotal, hfe, h1]
  | some r =>
    have hm := findEntry_matches lb c u r hfe
    have h1 : findEntry (lb.map (updateRow c u name (r.total_minutes + m))) c u
        = some (updateRow c u name (r.total_minutes + m) r) := by
      rw [findEntry_map_updateRow, hfe]
      rfl
    simp [add_study_minutes, getTotal, hfe, h1, updateRow, hm.1, hm.2]

theorem getTotal_add_other (lb : List LBRow) (c u c' u' : Int) (name : String) (m : Int)
    (h : ¬ (c' = c ∧ u' = u)) :
    getTotal (add_study_minutes lb c u name m) c' u' = getTotal lb c' u' := by
  cases hfe : findEntry lb c u with
  | none =>
    cases hfe2 : findEntry lb c' u' with
    | some r =>
      have h1 := findEntry_append_of_some lb [⟨c, u, name, m⟩] c' u' r hfe2
      simp [add_study_minutes, getTotal, hfe, hfe2, h1]
    | none =>
      have hnew : ¬ ((c : Int) = c' ∧ (u : Int) = u') := fun hh => h ⟨hh.1.symm, hh.2.symm⟩
      have h1 : findEntry (lb ++ [⟨c, u, name, m⟩]) c' u' = none := by
        rw [findEntry_append_of_none _ _ _ _ hfe2]
        simp [findEntry, hnew]
      simp [add_study_minutes, getTotal, hfe, hfe2, h1]
  | some r =>
    cases hfe2 : findEntry lb c' u' with
    | none =>
      have h1 : findEntry (lb.map (updateRow c u name (r.total_minutes + m))) c' u' = none := by
        rw [findEntry_map_updateRow, hfe2]
        rfl
      simp [add_study_minutes, getTotal, hfe, hfe2, h1]
    | some r' =>
      have hm := findEntry_matches lb c' u' r' hfe2
      have hne : ¬ (r'.chat_id = c ∧ r'.user_id = u) := by
        rw [hm.1, hm.2]
        exact h
      have h1 : findEntry (lb.map (updateRow c u name (r.total_minutes + m))) c' u'
          = some r' := by
        rw [findEntry_map_updateRow, hfe2]
        simp [updateRow_of_ne _ _ _ _ _ hne]
      simp [add_study_minutes, getTotal, hfe, hfe2, h1]

theorem creditMembers_cons (chat : Int) (a : Member) (rest : List Member) (m : Int)
    (lb : List LBRow) :
    creditMembers chat (a :: rest) m lb =
      creditMembers chat rest m (add_study_minutes lb chat a.id a.name m) := rfl

theorem getTotal_creditMembers_not_mem (chat : Int) (ms : List Member) (m : Int)
    (lb : List LBRow) (uid : Int) (h : uid ∉ ms.map Member.id) :
    getTotal (creditMembers chat ms m lb) chat uid = getTotal lb chat uid := by
  induction ms generalizing lb with
  | nil => rfl
  | cons a rest ih =>
    rw [creditMembers_cons]
    have hrest : uid ∉ rest.map Member.id := by
      intro hmem
      exact h (by simp [hmem])
    have ha : ¬ a.id = uid := by
      intro heq
      exact h (by simp [heq])
    rw [ih _ hrest, getTotal_add_other]
    intro hh
    exact ha hh.2.symm

theorem getTotal_creditMembers_mem (chat : Int) (ms : List Member) (m : Int)
    (lb : List LBRow) (u : Member) (hnd : (ms.map Member.id).Nodup) (hu : u ∈ ms) :
    getTotal (creditMembers chat ms m lb) chat u.id = getTotal lb chat u.id + m := by
  induction ms generalizing lb with
  | nil => cases hu
  | cons a rest ih =>
    rw [creditMembers_cons]
    have hnd' : (rest.map Member.id).Nodup := by
      simp only [List.map_cons, List.nodup_cons] at hnd
      exact hnd.2
    have hna : a.id ∉ rest.map Member.id := by
      simp only [List.map_cons, List.nodup_cons] at hnd
      exact hnd.1
    rcases List.mem_cons.mp hu with heq | hmem
    · subst heq
      rw [getTotal_creditMembers_not_mem _ _ _ _ _ hna, getTotal_add_self]
    · have ha : ¬ a.id = u.id := by
        intro heq
        exact hna (heq ▸ List.mem_map_of_mem Member.id hmem)
      rw [ih _ hnd' hmem, getTotal_add_other]
      intro hh
      exact ha hh.2.symm

end StudyBot

namespace StudyBot

/-! ## Tick shape lemmas -/

theorem runSessionTick_none (chat now : Int) (st : State)
    (hs : getSession chat st.active_sessions = none) :
    runSessionTick chat now st = ⟨st, [], true⟩ := by
  simp [runSessionTick, hs]

theorem runSessionTick_complete (chat now : Int) (st : State) (s : Session)
    (hs : getSession chat st.active_sessions = some s)
    (ht : remainingAt s now ≤ 0) :
    runSessionTick chat now st =
      { state := { st with
          active_sessions := removeSession chat st.active_sessions,
          session_tasks := removeTask chat st.session_tasks,
          leaderboard := creditMembers chat s.members s.minutes st.leaderboard },
        events := [Msg.finished chat s.minutes (participantsText s.members)],
        finished := true } := by
  simp [runSessionTick, hs, ht]

theorem runSessionTick_run (chat now : Int) (st : State) (s : Session)
    (hs : getSession chat st.active_sessions = some s)
    (ht : ¬ remainingAt s now ≤ 0) :
    runSessionTick chat now st =
      { state := { st with
          active_sessions := setSession chat (warnStep s now) st.active_sessions },
        events := warnEvents chat s now,
        finished := false } := by
  simp [runSessionTick, hs, ht, warnStep, warnEvents]

end StudyBot

namespace StudyBot

/-! ## Warning counting -/

theorem tick_warn1_facts (chat now : Int) (st : State) :
    ((runSessionTick chat now st).events.countP isWarn1 ≤ 1) ∧
    ((runSessionTick chat now st).events.countP isWarn1 = 1 →
      canEmit1 chat (runSessionTick chat now st).state = false) ∧
    (canEmit1 chat st = false →
      (runSessionTick chat now st).events.countP isWarn1 = 0 ∧
      canEmit1 chat (runSessionTick chat now st).state = false) := by
  cases hs : getSession chat st.active_sessions with
  | none =>
    rw [runSessionTick_none chat now st hs]
    exact ⟨by simp, by simp, fun h => ⟨by simp, by simp [canEmit1, hs]⟩⟩
  | some s =>
    by_cases ht : remainingAt s now ≤ 0
    · rw [runSessionTick_complete chat now st s hs ht]
      refine ⟨by simp [isWarn1], by simp [isWarn1], fun h => ⟨by simp [isWarn1], ?_⟩⟩
      simp [canEmit1, getSession_removeSession_self]
    · rw [runSessionTick_run chat now st s hs ht]
      cases hw1 : s.warned_1m <;> cases hw5 : s.warned_5m <;>
        cases hd1 : decide (60 ≤ remainingAt s now ∧ remainingAt s now < 75) <;>
          cases hd5 : decide (300 ≤ remainingAt s now ∧ remainingAt s now < 330) <;>
            simp [warnEvents, warnStep, canEmit1, hs, getSession_setSession,
              isWarn1, hw1, hw5, hd1, hd5]

theorem tick_warn5_facts (chat now : Int) (st : State) :
    ((runSessionTick chat now st).events.countP isWarn5 ≤ 1) ∧
    ((runSessionTick chat now st).events.countP isWarn5 = 1 →
      canEmit5 chat (runSessionTick chat now st).state = false) ∧
    (canEmit5 chat st = false →
      (runSessionTick chat now st).events.countP isWarn5 = 0 ∧
      canEmit5 chat (runSessionTick chat now st).state = false) := by
  cases hs : getSession chat st.active_sessions with
  | none =>
    rw [runSessionTick_none chat now st hs]
    exact ⟨by simp, by simp, fun h => ⟨by simp, by simp [canEmit5, hs]⟩⟩
  | some s =>
    by_cases ht : remainingAt s now ≤ 0
    · rw [runSessionTick_complete chat now st s hs ht]
      refine ⟨by simp [isWarn5], by simp [isWarn5], fun h => ⟨by simp [isWarn5], ?_⟩⟩
      simp [canEmit5, getSession_removeSession_self]
    · rw [runSessionTick_run chat now st s hs ht]
      cases hw1 : s.warned_1m <;> cases hw5 : s.warned_5m <;>
        cases hd1 : decide (60 ≤ remainingAt s now ∧ remainingAt s now < 75) <;>
          cases hd5 : decide (300 ≤ remainingAt s now ∧ remainingAt s now < 330) <;>
            simp [warnEvents, warnStep, canEmit5, hs, getSession_setSession,
              isWarn5, hw1, hw5, hd1, hd5]

theorem runTicks_count1_zero (chat : Int) (nows : List Int) (st : State)
    (h : canEmit1 chat st = false) :
    (runTicks chat nows st).2.countP isWarn1 = 0 := by
  induction nows generalizing st with
  | nil => rfl
  | cons now rest ih =>
    have hf := (tick_warn1_facts chat now st).2.2 h
    simp [runTicks, List.countP_append, hf.1, ih _ hf.2]

theorem runTicks_count5_zero (chat : Int) (nows : List Int) (st : State)
    (h : canEmit5 chat st = false) :
    (runTicks chat nows st).2.countP isWarn5 = 0 := by
  induction nows generalizing st with
  | nil => rfl
  | cons now rest ih =>
    have hf := (tick_warn5_facts chat now st).2.2 h
    simp [runTicks, List.countP_append, hf.1, ih _ hf.2]

theorem runTicks_count1_le_one (chat : Int) (nows : List Int) (st : State) :
    (runTicks chat nows st).2.countP isWarn1 ≤ 1 := by
  induction nows generalizing st with
  | nil => simp [runTicks]
  | cons now rest ih =>
    have hfacts := tick_warn1_facts chat now st
    rcases Nat.lt_or_ge ((runSessionTick chat now st).events.countP isWarn1) 1 with h0 | h1
    · have h0' := Nat.lt_one_iff.mp h0
      simpa [runTicks, List.countP_append, h0'] using ih (runSessionTick chat now st).state
    · have heq := le_antisymm hfacts.1 h1
      have hafter := hfacts.2.1 heq
      have hrest := runTicks_count1_zero chat rest _ hafter
      simp [runTicks, List.countP_append, heq, hrest]

theorem runTicks_count5_le_one (chat : Int) (nows : List Int) (st : State) :
    (runTicks chat nows st).2.countP isWarn5 ≤ 1 := by
  induction nows generalizing st with
  | nil => simp [runTicks]
  | cons now rest ih =>
    have hfacts := tick_warn5_facts chat now st
    rcases Nat.lt_or_ge ((runSessionTick chat now st).events.countP isWarn5) 1 with h0 | h1
    · have h0' := Nat.lt_one_iff.mp h0
      simpa [runTicks, List.countP_append, h0'] using ih (runSessionTick chat now st).state
    · have heq := le_antisymm hfacts.1 h1
      have hafter := hfacts.2.1 heq
      have hrest := runTicks_count5_zero chat rest _ hafter
      simp [runTicks, List.countP_append, heq, hrest]

theorem countP_warnEvents1 (chat : Int) (s : Session) (now : Int) :
    (warnEvents chat s now).countP isWarn1 =
      if (60 ≤ remainingAt s now ∧ remainingAt s now < 75) ∧ s.warned_1m = false
      then 1 else 0 := by
  rw [warnEvents]
  cases hw1 : s.warned_1m <;>
    by_cases hc1 : 60 ≤ remainingAt s now ∧ remainingAt s now < 75 <;>
      by_cases hc5 : 300 ≤ remainingAt s now ∧ remainingAt s now < 330 <;>
        cases hw5 : s.warned_5m <;>
          simp [isWarn1, hw1, hc1, hc5, hw5]

theorem countP_warnEvents5 (chat : Int) (s : Session) (now : Int) :
    (warnEvents chat s now).countP isWarn5 =
      if (300 ≤ remainingAt s now ∧ remainingAt s now < 330) ∧ s.warned_5m = false
      then 1 else 0 := by
  rw [warnEvents]
  cases hw1 : s.warned_1m <;>
    by_cases hc1 : 60 ≤ remainingAt s now ∧ remainingAt s now < 75 <;>
      by_cases hc5 : 300 ≤ remainingAt s now ∧ remainingAt s now < 330 <;>
        cases hw5 : s.warned_5m <;>
          simp [isWarn5, hw1, hc1, hc5, hw5]

theorem tick_count1_iff (chat now : Int) (st : State) :
    (runSessionTick chat now st).events.countP isWarn1 = 1 ↔
      ∃ s, getSession chat st.active_sessions = some s ∧
        60 ≤ remainingAt s now ∧ remainingAt s now < 75 ∧ s.warned_1m = false := by
  cases hs : getSession chat st.active_sessions with
  | none =>
    rw [runSessionTick_none chat now st hs]
    simp
  | some s =>
    by_cases ht : remainingAt s now ≤ 0
    · have hev : (runSessionTick chat now st).events
          = [Msg.finished chat s.minutes (participantsText s.members)] := by
        rw [runSessionTick_complete chat now st s hs ht]
      rw [hev]
      constructor
      · intro h
        simp [isWarn1] at h
      · rintro ⟨s2, hs2, h60, h75, hw⟩
        injection hs2 with he
        subst he
        omega
    · have hev : (runSessionTick chat now st).events = warnEvents chat s now := by
        rw [runSessionTick_run chat now st s hs ht]
      rw [hev, countP_warnEvents1]
      constructor
      · intro h
        by_cases hc : (60 ≤ remainingAt s now ∧ remainingAt s now < 75) ∧ s.warned_1m = false
        · exact ⟨s, rfl, hc.1.1, hc.1.2, hc.2⟩
        · rw [if_neg hc] at h
          cases h
      · rintro ⟨s2, hs2, h60, h75, hw⟩
        injection hs2 with he
        subst he
        rw [if_pos ⟨⟨h60, h75⟩, hw⟩]

theorem tick_count5_iff (chat now : Int) (st : State) :
    (runSessionTick chat now st).events.countP isWarn5 = 1 ↔
      ∃ s, getSession chat st.active_sessions = some s ∧
        300 ≤ remainingAt s now ∧ remainingAt s now < 330 ∧ s.warned_5m = false := by
  cases hs : getSession chat st.active_sessions with
  | none =>
    rw [runSessionTick_none chat now st hs]
    simp
  | some s =>
    by_cases ht : remainingAt s now ≤ 0
    · have hev : (runSessionTick chat now st).events
          = [Msg.finished chat s.minutes (participantsText s.members)] := by
        rw [runSessionTick_complete chat now st s hs ht]
      rw [hev]
      constructor
      · intro h
        simp [isWarn5] at h
      · rintro ⟨s2, hs2, h300, h330, hw⟩
        injection hs2 with he
        subst he
        omega
    · have hev : (runSessionTick chat now st).events = warnEvents chat s now := by
        rw [runSessionTick_run chat now st s hs ht]
      rw [hev, countP_warnEvents5]
      constructor
      · intro h
        by_cases hc : (300 ≤ remainingAt s now ∧ remainingAt s now < 330) ∧ s.warned_5m = false
        · exact ⟨s, rfl, hc.1.1, hc.1.2, hc.2⟩
        · rw [if_neg hc] at h
          cases h
      · rintro ⟨s2, hs2, h300, h330, hw⟩
        injection hs2 with he
        subst he
        rw [if_pos ⟨⟨h300, h330⟩, hw⟩]

/-- Session lookup in the state after a fired warning: the flag is set. -/
theorem tick_sets_flag1 (chat now : Int) (st : State)
    (h : (runSessionTick chat now st).events.countP isWarn1 = 1) :
    ∃ s, getSession chat (runSessionTick chat now st).state.active_sessions = some s ∧
      s.warned_1m = true := by
  rcases (tick_count1_iff chat now st).mp h with ⟨s, hs, h60, h75, hw⟩
  have ht : ¬ remainingAt s now ≤ 0 := by omega
  rw [runSessionTick_run chat now st s hs ht]
  refine ⟨warnStep s now, ?_, ?_⟩
  · simp [getSession_setSession]
  · simp [warnStep, hw, h60, h75]

theorem tick_sets_flag5 (chat now : Int) (st : State)
    (h : (runSessionTick chat now st).events.countP isWarn5 = 1) :
    ∃ s, getSession chat (runSessionTick chat now st).state.active_sessions = some s ∧
      s.warned_5m = true := by
  rcases (tick_count5_iff chat now st).mp h with ⟨s, hs, h300, h330, hw⟩
  have ht : ¬ remainingAt s now ≤ 0 := by omega
  rw [runSessionTick_run chat now st s hs ht]
  refine ⟨warnStep s now, ?_, ?_⟩
  · simp [getSession_setSession]
  · simp [warnStep, hw, h300, h330]

end StudyBot

namespace StudyBot

/-! ## Claim theorems -/

/-- C2: for every session, each warning threshold fires at most once over
any sequence of poll ticks; one tick emits the 1-minute warning exactly
when the remaining time satisfies 60 ≤ remaining < 75 seconds and its flag
is unset, the 5-minute warning exactly when 300 ≤ remaining < 330 and its
flag is unset, and an emission leaves the corresponding write-once flag set
in the stored session, so no later poll tick can re-fire it. -/
theorem C2_warnings_fire_at_most_once :
    (∀ chat nows st, ((runTicks chat nows st).2.countP isWarn1 ≤ 1) ∧
       ((runTicks chat nows st).2.countP isWarn5 ≤ 1)) ∧
    (∀ chat now st,
       ((runSessionTick chat now st).events.countP isWarn1 = 1 ↔
         ∃ s, getSession chat st.active_sessions = some s ∧
           60 ≤ remainingAt s now ∧ remainingAt s now < 75 ∧ s.warned_1m = false)) ∧
    (∀ chat now st,
       ((runSessionTick chat now st).events.countP isWarn5 = 1 ↔
         ∃ s, getSession chat st.active_sessions = some s ∧
           300 ≤ remainingAt s now ∧ remainingAt s now < 330 ∧ s.warned_5m = false)) ∧
    (∀ chat now st, (runSessionTick chat now st).events.countP isWarn1 = 1 →
       ∃ s, getSession chat (runSessionTick chat now st).state.active_sessions = some s ∧
         s.warned_1m = true) ∧
    (∀ chat now st, (runSessionTick chat now st).events.countP isWarn5 = 1 →
       ∃ s, getSession chat (runSessionTick chat now st).state.active_sessions = some s ∧
         s.warned_5m = true) :=
  ⟨fun chat nows st =>
      ⟨runTicks_count1_le_one chat nows st, runTicks_count5_le_one chat nows st⟩,
    tick_count1_iff, tick_count5_iff, tick_sets_flag1, tick_sets_flag5⟩

/-- C2 witness: a tick at 70 remaining seconds fires the 1-minute warning
and sets the session flag. -/
theorem C2_warnings_witness :
    ∃ s, getSession 1 (runSessionTick 1 1430 sampleState).state.active_sessions = some s ∧
      s.warned_1m = true :=
  C2_warnings_fire_at_most_once.2.2.2.1 1 1430 sampleState (by decide)

/-- Text of the completion message participant list is "No one" for no
members. -/
theorem participantsText_nil : participantsText [] = "No one" := rfl

/-- C1: when a poll tick observes remaining ≤ 0, every member of the
membership list at that moment is credited exactly the session duration in
the leaderboard under the key (chat, member id); with no members the
leaderboard is unchanged and the completion notification carries the
"No one" marker; the session is removed from the registry and task table. -/
theorem C1_completion_credits (st : State) (chat now : Int) (s : Session)
    (hs : getSession chat st.active_sessions = some s)
    (hnd : (s.members.map Member.id).Nodup)
    (ht : remainingAt s now ≤ 0) :
    (∀ u ∈ s.members,
      getTotal (runSessionTick chat now st).state.leaderboard chat u.id =
        getTotal st.leaderboard chat u.id + s.minutes) ∧
    getSession chat (runSessionTick chat now st).state.active_sessions = none ∧
    (s.members = [] →
      (runSessionTick chat now st).state.leaderboard = st.leaderboard ∧
      (runSessionTick chat now st).events = [Msg.finished chat s.minutes "No one"]) := by
  rw [runSessionTick_complete chat now st s hs ht]
  refine ⟨?_, ?_, ?_⟩
  · intro u hu
    exact getTotal_creditMembers_mem chat s.members s.minutes st.leaderboard u hnd hu
  · exact getSession_removeSession_self chat st.active_sessions
  · intro hemp
    rw [hemp, participantsText_nil]
    exact ⟨rfl, rfl⟩

/-- C1 witness: the single member of a finished 25-minute session is
credited 25 minutes and the session is gone. -/
theorem C1_completion_witness :
    getTotal (runSessionTick 1 1500 stateWithAnn).state.leaderboard 1 42 = 25 ∧
    getSession 1 (runSessionTick 1 1500 stateWithAnn).state.active_sessions = none := by
  have h := C1_completion_credits stateWithAnn 1 1500 sessionWithAnn (by decide) (by decide)
    (by decide)
  exact ⟨by simpa using h.1 sampleMember (by decide), h.2.1⟩

end StudyBot

namespace StudyBot

/-- C6: the leaderboard credit is an upsert: the stored total for the key
always grows by the credited minutes; a missing entry is created with
exactly the credited minutes; an existing entry gets the sum and the
latest display name; crediting 10 then 15 yields a total of 25. -/
theorem C6_credit_upsert :
    (∀ lb c u name m,
       getTotal (add_study_minutes lb c u name m) c u = getTotal lb c u + m) ∧
    (∀ lb c u name m, findEntry lb c u = none →
       findEntry (add_study_minutes lb c u name m) c u = some ⟨c, u, name, m⟩) ∧
    (∀ lb c u name m r, findEntry lb c u = some r →
       findEntry (add_study_minutes lb c u name m) c u =
         some { r with username := name, total_minutes := r.total_minutes + m }) ∧
    getTotal (add_study_minutes (add_study_minutes [] 7 42 "P" 10) 7 42 "P" 15) 7 42 = 25 := by
  refine ⟨getTotal_add_self, ?_, ?_, by decide⟩
  · intro lb c u name m hfe
    simp only [add_study_minutes, hfe]
    rw [findEntry_append_of_none _ _ _ _ hfe]
    simp [findEntry]
  · intro lb c u name m r hfe
    simp only [add_study_minutes, hfe]
    rw [findEntry_map_updateRow, hfe]
    have hm := findEntry_matches lb c u r hfe
    simp [updateRow, hm.1, hm.2]

/-- C6 witness: updating an existing row sums the totals and overwrites
the display name. -/
theorem C6_credit_upsert_witness :
    findEntry (add_study_minutes [⟨7, 42, "P", 10⟩] 7 42 "Q" 15) 7 42 =
      some ⟨7, 42, "Q", 25⟩ := by
  have h := C6_credit_upsert.2.2.1 [⟨7, 42, "P", 10⟩] 7 42 "Q" 15 ⟨7, 42, "P", 10⟩ (by decide)
  simpa using h

/-- C10: for a live session, the status report clamps remaining time at
zero: reported minutes and seconds are never negative, and once the end
time has passed both are exactly zero. -/
theorem C10_status_clamped (st : State) (chat now : Int) (s : Session)
    (hs : getSession chat st.active_sessions = some s) :
    ∃ mins secs parts, status_command chat now st = .status s.minutes mins secs parts ∧
      0 ≤ mins ∧ 0 ≤ secs ∧
      (s.start_time + s.minutes * 60 ≤ now → mins = 0 ∧ secs = 0) := by
  refine ⟨max 0 (remainingAt s now) / 60, max 0 (remainingAt s now) % 60,
    statusMembersText s.members, ?_, ?_, ?_, ?_⟩
  · simp [status_command, hs]
  · have h0 : (0 : Int) ≤ max 0 (remainingAt s now) := le_max_left 0 _
    omega
  · have h0 : (0 : Int) ≤ max 0 (remainingAt s now) := le_max_left 0 _
    omega
  · intro hend
    have hr : remainingAt s now ≤ 0 := by
      rw [remainingAt]
      omega
    have hmax : max 0 (remainingAt s now) = 0 := max_eq_left hr
    rw [hmax]
    exact ⟨rfl, rfl⟩

/-- C10 witness: status queried 500 seconds after the end of a 25-minute
session reports zero remaining. -/
theorem C10_status_witness :
    ∃ mins secs parts, status_command 1 2000 stateWithAnn = .status 25 mins secs parts ∧
      0 ≤ mins ∧ 0 ≤ secs ∧
      (sessionWithAnn.start_time + sessionWithAnn.minutes * 60 ≤ 2000 →
        mins = 0 ∧ secs = 0) :=
  C10_status_clamped stateWithAnn 1 2000 sessionWithAnn (by decide)

/-- C3: an admin cancellation before completion reports success, leaves the
leaderboard untouched, removes the session from the registry, and a
subsequent start for the same chat succeeds immediately. -/
theorem C3_cancel_no_credit (st : State) (chat : Int) (s : Session)
    (hs : getSession chat st.active_sessions = some s) :
    (end_command chat (PermCheck.ok "administrator") st).2 = EndReply.ended ∧
    (end_command chat (PermCheck.ok "administrator") st).1.leaderboard = st.leaderboard ∧
    getSession chat
      (end_command chat (PermCheck.ok "administrator") st).1.active_sessions = none ∧
    (∀ now m c, 0 < m →
      (study_command chat now [some m, some c]
        (end_command chat (PermCheck.ok "administrator") st).1).2 =
          StudyReply.started m c) := by
  have hcmd : end_command chat (PermCheck.ok "administrator") st =
      ({ st with active_sessions := removeSession chat st.active_sessions,
                 session_tasks := removeTask chat st.session_tasks }, .ended) := by
    simp [end_command, hs]
  rw [hcmd]
  refine ⟨rfl, rfl, getSession_removeSession_self chat st.active_sessions, ?_⟩
  intro now m c hm
  have hm' : ¬ m ≤ 0 := by omega
  have hnone : getSession chat (removeSession chat st.active_sessions) = none :=
    getSession_removeSession_self chat st.active_sessions
  simp [study_command, parseStudy, hnone, hm']

/-- C3 witness: cancelling the live session of chat 1 and then starting a
fresh 30-minute session succeeds. -/
theorem C3_cancel_witness :
    (end_command 1 (PermCheck.ok "administrator") stateWithAnn).2 = EndReply.ended ∧
    (end_command 1 (PermCheck.ok "administrator") stateWithAnn).1.leaderboard =
      stateWithAnn.leaderboard ∧
    (study_command 1 2000 [some 30, some 2]
      (end_command 1 (PermCheck.ok "administrator") stateWithAnn).1).2 =
        StudyReply.started 30 2 := by
  have h := C3_cancel_no_credit stateWithAnn 1 sessionWithAnn (by decide)
  exact ⟨h.1, h.2.1, h.2.2.2 2000 30 2 (by norm_num)⟩

end StudyBot

namespace StudyBot

/-- The started chat is always recorded in the task table. -/
theorem mem_addTask (chat : Int) (l : List Int) : chat ∈ addTask chat l := by
  unfold addTask
  by_cases h : chat ∈ l
  · rwa [if_pos h]
  · rw [if_neg h]
    simp

/-- A successful start installs the fresh session and its task. -/
theorem study_command_success (st : State) (chat now : Int) (a : Option Int)
    (rest : List (Option Int)) (m c : Int)
    (hp : parseStudy (a :: rest) = some (m, c)) (hm : ¬ m ≤ 0)
    (hns : getSession chat st.active_sessions = none) :
    study_command chat now (a :: rest) st =
      ({ st with
          active_sessions := setSession chat (freshSession m now c) st.active_sessions,
          session_tasks := addTask chat st.session_tasks },
       StudyReply.started m c) := by
  simp [study_command, freshSession, hp, hm, hns]

/-- C4: start replies with the usage message on no arguments, rejects a
malformed number or non-positive minutes with InvalidInput and a live
session with Conflict — in all failure cases without mutating state — and
on success installs a fresh Running session and registers its scheduler
task. -/
theorem C4_start_semantics :
    (∀ st chat now, study_command chat now [] st = (st, StudyReply.usage)) ∧
    (∀ st chat now args, args ≠ [] → parseStudy args = none →
       study_command chat now args st = (st, StudyReply.invalidInput)) ∧
    (∀ st chat now args m c, parseStudy args = some (m, c) → m ≤ 0 →
       study_command chat now args st = (st, StudyReply.invalidInput)) ∧
    (∀ st chat now args m c s, parseStudy args = some (m, c) → 0 < m →
       getSession chat st.active_sessions = some s →
       study_command chat now args st = (st, StudyReply.conflict)) ∧
    (∀ st chat now args m c, parseStudy args = some (m, c) → 0 < m →
       getSession chat st.active_sessions = none →
       (study_command chat now args st).2 = StudyReply.started m c ∧
       getSession chat (study_command chat now args st).1.active_sessions =
         some (freshSession m now c) ∧
       chat ∈ (study_command chat now args st).1.session_tasks) := by
  refine ⟨fun st chat now => rfl, ?_, ?_, ?_, ?_⟩
  · intro st chat now args hne hp
    cases args with
    | nil => exact absurd rfl hne
    | cons a rest => simp [study_command, hp]
  · intro st chat now args m c hp hm
    cases args with
    | nil => exact absurd hp (by simp [parseStudy])
    | cons a rest => simp [study_command, hp, hm]
  · intro st chat now args m c s hp hm hs
    have hm' : ¬ m ≤ 0 := by omega
    cases args with
    | nil => exact absurd hp (by simp [parseStudy])
    | cons a rest => simp [study_command, hp, hm', hs]
  · intro st chat now args m c hp hm hns
    have hm' : ¬ m ≤ 0 := by omega
    cases args with
    | nil => exact absurd hp (by simp [parseStudy])
    | cons a rest =>
      rw [study_command_success st chat now a rest m c hp hm' hns]
      refine ⟨rfl, ?_, mem_addTask chat st.session_tasks⟩
      simp [getSession_setSession]

/-- C4 witness: starting a 25-minute single-cycle session in an empty state
succeeds and installs the session and its task. -/
theorem C4_start_witness :
    (study_command 1 0 [some 25, some 1] initState).2 = StudyReply.started 25 1 ∧
    getSession 1 (study_command 1 0 [some 25, some 1] initState).1.active_sessions =
      some (freshSession 25 0 1) ∧
    1 ∈ (study_command 1 0 [some 25, some 1] initState).1.session_tasks :=
  C4_start_semantics.2.2.2.2 initState 1 0 [some 25, some 1] 25 1 rfl (by norm_num) rfl

end StudyBot

namespace StudyBot

/-- Start preserves the duplicate-free membership invariant. -/
theorem membersNodup_study (st : State) (chat now : Int) (args : List (Option Int))
    (h : MembersNodup st) : MembersNodup (study_command chat now args st).1 := by
  cases args with
  | nil => exact h
  | cons a rest =>
    cases hp : parseStudy (a :: rest) with
    | none =>
      have hcmd : study_command chat now (a :: rest) st = (st, .invalidInput) := by
        simp [study_command, hp]
      rw [hcmd]
      exact h
    | some mc =>
      obtain ⟨m, c⟩ := mc
      by_cases hm : m ≤ 0
      · have hcmd : study_command chat now (a :: rest) st = (st, .invalidInput) := by
          simp [study_command, hp, hm]
        rw [hcmd]
        exact h
      · cases hns : getSession chat st.active_sessions with
        | some s =>
          have hcmd : study_command chat now (a :: rest) st = (st, .conflict) := by
            simp [study_command, hp, hm, hns]
          rw [hcmd]
          exact h
        | none =>
          rw [study_command_success st chat now a rest m c hp hm hns]
          intro chat2 s2 hs2
          rw [getSession_setSession] at hs2
          by_cases hc : chat2 = chat
          · rw [if_pos hc] at hs2
            injection hs2 with he
            rw [← he]
            simp [freshSession]
          · rw [if_neg hc] at hs2
            exact h chat2 s2 hs2

/-- Join preserves the duplicate-free membership invariant. -/
theorem membersNodup_join (st : State) (chat uid : Int) (name : String)
    (h : MembersNodup st) : MembersNodup (join_command chat uid name st).1 := by
  cases hs : getSession chat st.active_sessions with
  | none =>
    have hcmd : join_command chat uid name st = (st, .noSession) := by
      simp [join_command, hs]
    rw [hcmd]
    exact h
  | some s =>
    by_cases hj : s.members.any (fun u => u.id == uid)
    · have hcmd : join_command chat uid name st = (st, .alreadyJoined) := by
        simp [join_command, hs, hj]
      rw [hcmd]
      exact h
    · have hcmd : (join_command chat uid name st).1 =
          { st with active_sessions := setSession chat { s with members := s.members ++ [⟨uid, name⟩] } st.active_sessions } := by
        simp [join_command, hs, hj]
      rw [hcmd]
      intro chat2 s2 hs2
      rw [getSession_setSession] at hs2
      by_cases hc : chat2 = chat
      · rw [if_pos hc] at hs2
        injection hs2 with he
        rw [← he]
        have hnd := h chat s hs
        have hnotin : uid ∉ s.members.map Member.id := by
          intro hmem
          rcases List.mem_map.mp hmem with ⟨u, hu, hid⟩
          exact hj (List.any_eq_true.mpr ⟨u, hu, by simp [hid]⟩)
        simp only [List.map_append]
        refine List.Nodup.append hnd (by simp) ?_
        intro x hx hx'
        simp only [List.map_cons, List.map_nil, List.mem_singleton] at hx'
        subst hx'
        exact hnotin hx
      · rw [if_neg hc] at hs2
        exact h chat2 s2 hs2

/-- Cancellation preserves the duplicate-free membership invariant. -/
theorem membersNodup_cancel (st : State) (chat : Int) (perm : PermCheck)
    (h : MembersNodup st) : MembersNodup (end_command chat perm st).1 := by
  cases perm with
  | err => exact h
  | ok status =>
    by_cases hst : status ≠ "administrator" ∧ status ≠ "creator"
    · have hcmd : end_command chat (.ok status) st = (st, .forbidden) := by
        simp only [end_command, if_pos hst]
      rw [hcmd]
      exact h
    · by_cases hnone : (getSession chat st.active_sessions).isNone
      · have hcmd : end_command chat (.ok status) st = (st, .noSession) := by
          simp only [end_command, if_neg hst, if_pos hnone]
        rw [hcmd]
        exact h
      · have hcmd : (end_command chat (.ok status) st).1 =
            { st with active_sessions := removeSession chat st.active_sessions,
                      session_tasks := removeTask chat st.session_tasks } := by
          simp only [end_command, if_neg hst, if_neg hnone]
        rw [hcmd]
        intro chat2 s2 hs2
        by_cases hc : chat2 = chat
        · subst hc
          rw [getSession_removeSession_self] at hs2
          cases hs2
        · rw [getSession_removeSession_ne chat chat2 _ hc] at hs2
          exact h chat2 s2 hs2

/-- One poll iteration preserves the duplicate-free membership invariant. -/
theorem membersNodup_tick (st : State) (chat now : Int)
    (h : MembersNodup st) : MembersNodup (runSessionTick chat now st).state := by
  cases hs : getSession chat st.active_sessions with
  | none =>
    rw [runSessionTick_none chat now st hs]
    exact h
  | some s =>
    by_cases ht : remainingAt s now ≤ 0
    · rw [runSessionTick_complete chat now st s hs ht]
      intro chat2 s2 hs2
      by_cases hc : chat2 = chat
      · subst hc
        rw [getSession_removeSession_self] at hs2
        cases hs2
      · rw [getSession_removeSession_ne chat chat2 _ hc] at hs2
        exact h chat2 s2 hs2
    · rw [runSessionTick_run chat now st s hs ht]
      intro chat2 s2 hs2
      rw [getSession_setSession] at hs2
      by_cases hc : chat2 = chat
      · rw [if_pos hc] at hs2
        injection hs2 with he
        rw [← he]
        exact h chat s hs
      · rw [if_neg hc] at hs2
        exact h chat2 s2 hs2

/-- Every request preserves the duplicate-free membership invariant. -/
theorem membersNodup_applyOp (st : State) (op : Op) (h : MembersNodup st) :
    MembersNodup (applyOp st op) := by
  cases op with
  | study chat now args => exact membersNodup_study st chat now args h
  | join chat uid name => exact membersNodup_join st chat uid name h
  | statusQ chat now => exact h
  | cancel chat perm => exact membersNodup_cancel st chat perm h
  | leaderboardQ chat => exact h
  | tick chat now => exact membersNodup_tick st chat now h

/-- The invariant holds along any request sequence. -/
theorem membersNodup_runOps (ops : List Op) (st : State) (h : MembersNodup st) :
    MembersNodup (runOps ops st) := by
  induction ops generalizing st with
  | nil => exact h
  | cons op rest ih => exact ih _ (membersNodup_applyOp st op h)

/-- C5: join replies NotFound without a live session, AlreadyJoined (with
membership unchanged) when the participant id is already present, and
otherwise appends the participant and reports the new member count; in
every state reachable from the initial state no session's member list
holds a duplicate participant id. -/
theorem C5_join_semantics :
    (∀ st chat uid name, getSession chat st.active_sessions = none →
       join_command chat uid name st = (st, JoinReply.noSession)) ∧
    (∀ st chat uid name s, getSession chat st.active_sessions = some s →
       s.members.any (fun u => u.id == uid) = true →
       join_command chat uid name st = (st, JoinReply.alreadyJoined)) ∧
    (∀ st chat uid name s, getSession chat st.active_sessions = some s →
       s.members.any (fun u => u.id == uid) = false →
       (join_command chat uid name st).2 = JoinReply.joined name (s.members.length + 1) ∧
       getSession chat (join_command chat uid name st).1.active_sessions =
         some { s with members := s.members ++ [⟨uid, name⟩] }) ∧
    (∀ ops, MembersNodup (runOps ops initState)) := by
  refine ⟨?_, ?_, ?_, ?_⟩
  · intro st chat uid name hs
    simp [join_command, hs]
  · intro st chat uid name s hs hj
    simp [join_command, hs, hj]
  · intro st chat uid name s hs hj
    constructor
    · simp [join_command, hs, hj]
    · simp [join_command, hs, hj, getSession_setSession]
  · intro ops
    refine membersNodup_runOps ops initState ?_
    intro chat s hs
    cases hs

/-- C5 witness: joining a fresh session appends the member and reports a
count of one; rejoining the same id is rejected and reachable states keep
members duplicate-free. -/
theorem C5_join_witness :
    (join_command 1 42 "Ann" sampleState).2 = JoinReply.joined "Ann" 1 ∧
    join_command 1 42 "Ann" (join_command 1 42 "Ann" sampleState).1 =
      ((join_command 1 42 "Ann" sampleState).1, JoinReply.alreadyJoined) := by
  have h1 := C5_join_semantics.2.2.1 sampleState 1 42 "Ann" sampleSession (by decide) (by decide)
  have h2 := C5_join_semantics.2.1 (join_command 1 42 "Ann" sampleState).1 1 42 "Ann"
    { sampleSession with members := [⟨42, "Ann"⟩] } (by decide) (by decide)
  exact ⟨h1.1, h2⟩

end StudyBot

namespace StudyBot

/-- C7 counterexample: the leaderboard command exposes no limit parameter —
its limit is the literal 10 — so with two rows stored for the chat and a
requested limit of 1, the spec's topN would return one entry while the
code's query returns two. -/
theorem C7_counterexample :
    (leaderboardQuery lbExample 1).length = 2 ∧
    ¬ ((leaderboardQuery lbExample 1).length ≤ 1) ∧
    leaderboardQuery lbExample 1 ≠ topN_spec lbExample 1 1 := by decide

/-- C7 (amended): the leaderboard query takes only the chat id, with the
limit fixed at 10: it returns at most 10 entries, sorted by total minutes
descending, and a chat with no rows yields the non-error "No records yet"
reply. -/
theorem C7_leaderboard_fixed_limit :
    (∀ lb chat, (leaderboardQuery lb chat).length ≤ 10) ∧
    (∀ lb chat, List.Sorted byMinutesDesc (leaderboardQuery lb chat)) ∧
    (∀ st chat, lbRows st.leaderboard chat = [] →
       leaderboard_command chat st = LBReply.noRecords) := by
  refine ⟨?_, ?_, ?_⟩
  · intro lb chat
    rw [leaderboardQuery, List.length_take]
    exact min_le_left _ _
  · intro lb chat
    exact List.Pairwise.sublist (List.take_sublist 10 _)
      (List.sorted_insertionSort byMinutesDesc (lbRows lb chat))
  · intro st chat h
    simp [leaderboard_command, leaderboardQuery, h]

/-- C7 witness: the two-row example obeys the cap and ordering, and a chat
without rows gets the informational empty reply. -/
theorem C7_leaderboard_witness :
    (leaderboardQuery lbExample 1).length ≤ 10 ∧
    List.Sorted byMinutesDesc (leaderboardQuery lbExample 1) ∧
    leaderboard_command 2 ⟨[], [], lbExample⟩ = LBReply.noRecords :=
  ⟨C7_leaderboard_fixed_limit.1 lbExample 1,
   C7_leaderboard_fixed_limit.2.1 lbExample 1,
   C7_leaderboard_fixed_limit.2.2 ⟨[], [], lbExample⟩ 2 (by decide)⟩

/-- C8 counterexample: with no live session a non-admin requester receives
the permission refusal, not NotFound — the permission check runs before the
registry lookup. -/
theorem C8_counterexample :
    end_command 1 (PermCheck.ok "member") initState = (initState, EndReply.forbidden) ∧
    (end_command 1 (PermCheck.ok "member") initState).2 ≠ EndReply.noSession := by
  decide

/-- C8 (amended): with no live session, cancel replies NotFound when the
requester's status is elevated ("administrator" or "creator") — in
particular a second cancel after removal replies NotFound — while a
non-elevated or unverifiable requester is rejected by the permission check
regardless of session existence. -/
theorem C8_cancel_not_found :
    (∀ st chat, getSession chat st.active_sessions = none →
       end_command chat (PermCheck.ok "administrator") st = (st, EndReply.noSession) ∧
       end_command chat (PermCheck.ok "creator") st = (st, EndReply.noSession)) ∧
    (∀ st chat status, status ≠ "administrator" → status ≠ "creator" →
       end_command chat (PermCheck.ok status) st = (st, EndReply.forbidden)) ∧
    (∀ st chat, end_command chat PermCheck.err st = (st, EndReply.permFailed)) ∧
    (∀ st chat s, getSession chat st.active_sessions = some s →
       (end_command chat (PermCheck.ok "administrator")
         (end_command chat (PermCheck.ok "administrator") st).1).2 =
           EndReply.noSession) := by
  refine ⟨?_, ?_, fun st chat => rfl, ?_⟩
  · intro st chat hs
    constructor <;> simp [end_command, hs]
  · intro st chat status h1 h2
    simp [end_command, h1, h2]
  · intro st chat s hs
    have h1 : end_command chat (PermCheck.ok "administrator") st =
        ({ st with active_sessions := removeSession chat st.active_sessions,
                   session_tasks := removeTask chat st.session_tasks }, .ended) := by
      simp [end_command, hs]
    rw [h1]
    simp [end_command, getSession_removeSession_self]

/-- C8 witness: an admin cancel on an empty registry replies NotFound, and
after an admin cancel of a live session a second cancel replies NotFound. -/
theorem C8_cancel_witness :
    end_command 5 (PermCheck.ok "administrator") initState =
      (initState, EndReply.noSession) ∧
    (end_command 1 (PermCheck.ok "administrator")
      (end_command 1 (PermCheck.ok "administrator") stateWithAnn).1).2 =
        EndReply.noSession :=
  ⟨(C8_cancel_not_found.1 initState 5 rfl).1,
   C8_cancel_not_found.2.2.2 stateWithAnn 1 sessionWithAnn (by decide)⟩

/-- C9 counterexample: the start request `/study 25 0` is accepted and
installs a session whose cycles field is 0, refuting that every installed
session has a strictly positive cycles count. -/
theorem C9_counterexample :
    ¬ (∀ (st : State) (chat now : Int) (args : List (Option Int)) (s : Session),
        getSession chat (study_command chat now args st).1.active_sessions = some s →
        0 < s.cycles) := by
  intro h
  have hc := h initState 1 0 [some 25, some 0] (freshSession 25 0 0) (by decide)
  exact absurd hc (by decide)

/-- C9 (amended): a session started without an explicit cycles argument is
installed with cycles = 1, which is positive; a supplied cycles argument is
stored unvalidated, so the installed cycles equals the given value and may
be non-positive. -/
theorem C9_cycles_unvalidated :
    (∀ st chat now m, 0 < m → getSession chat st.active_sessions = none →
       (getSession chat (study_command chat now [some m] st).1.active_sessions).map
         Session.cycles = some 1) ∧
    (∀ st chat now m c rest, 0 < m → getSession chat st.active_sessions = none →
       (getSession chat
         (study_command chat now (some m :: some c :: rest) st).1.active_sessions).map
           Session.cycles = some c) := by
  constructor
  · intro st chat now m hm hns
    have hm' : ¬ m ≤ 0 := by omega
    rw [study_command_success st chat now (some m) [] m 1 rfl hm' hns]
    simp [getSession_setSession, freshSession]
  · intro st chat now m c rest hm hns
    have hm' : ¬ m ≤ 0 := by omega
    rw [study_command_success st chat now (some m) (some c :: rest) m c rfl hm' hns]
    simp [getSession_setSession, freshSession]

/-- C9 witness: `/study 25` installs cycles 1; `/study 25 0` installs
cycles 0. -/
theorem C9_cycles_witness :
    (getSession 1 (study_command 1 0 [some 25] initState).1.active_sessions).map
      Session.cycles = some 1 ∧
    (getSession 1 (study_command 1 0 [some 25, some 0] initState).1.active_sessions).map
      Session.cycles = some 0 :=
  ⟨C9_cycles_unvalidated.1 initState 1 0 25 (by norm_num) rfl,
   C9_cycles_unvalidated.2 initState 1 0 25 0 [] (by norm_num) rfl⟩

end StudyBot
